import Mathlib

/-!
Formal model of the porto container-runtime adapter
(`pkg/minikube/cruntime`, porto implementation).

The adapter's collaborators (command runner, init system, JSON decoder,
image catalog) are modelled as explicit environment parameters: a command's
outcome is an `Option String` (`none` = execution failure, `some out` =
captured output), side effects are recorded as explicit event traces, and
fallible operations return `Except`.
-/

set_option maxHeartbeats 1000000
set_option linter.unusedVariables false

/-- `c` occurs in the character list `l`. -/
def hasChar (l : List Char) (c : Char) : Bool :=
  l.any (fun d => d == c)

/-- Modelled from the spec: `addRepoTagToImageName` is defined outside the
provided sources; per the spec it is the runtime's "add default tag/repository"
normalization. A name with no repository component receives the default
repository prefix, and a name with no tag receives the default `latest` tag. -/
def addRepoTagToImageName (i : String) : String :=
  let withRepo := if hasChar i.data '/' then i else "docker.io/library/" ++ i
  if hasChar withRepo.data ':' then withRepo else withRepo ++ ":latest"

/-- One record of the `crictl images --output json` inventory:
`{ "id": string, "repoTags": [string, ...] }`. -/
structure CrictlImage where
  id : String
  repoTags : List String
  deriving DecidableEq

/-- The decoded inventory JSON: `{ "images": [ ... ] }`. -/
structure CrictlImages where
  images : List CrictlImage
  deriving DecidableEq

/-- Innermost loop of `portoImagesPreloaded`: scan one entry's `repoTags`,
re-normalizing the required name `i` before each comparison (the Go code
reassigns `i = addRepoTagToImageName(i)` inside the loop), and compare the
normalized requirement with the raw candidate tag. Returns the threaded
requirement string together with the `found` flag. -/
def findTagInEntry (i : String) : List String → String × Bool
  | [] => (i, false)
  | rt :: rts =>
    let i2 := addRepoTagToImageName i
    if i2 == rt then (i2, true) else findTagInEntry i2 rts

/-- Middle loop of `portoImagesPreloaded`: scan all inventory entries for the
required name `i`, threading the (possibly re-normalized) requirement. -/
def findTagInInventory (i : String) : List CrictlImage → String × Bool
  | [] => (i, false)
  | e :: es =>
    let (i2, f) := findTagInEntry i e.repoTags
    if f then (i2, true) else findTagInInventory i2 es

/-- Outer loop of `portoImagesPreloaded`: every required image must be found;
short-circuits to `false` on the first unmatched requirement. -/
def imagesAllFound (entries : List CrictlImage) : List String → Bool
  | [] => true
  | i :: is =>
    let (_, f) := findTagInInventory i entries
    if f then imagesAllFound entries is else false

/-- `portoImagesPreloaded runner images`: run
`sudo crictl images --output json` (outcome `invRun`; `none` models a failed
command), decode its stdout (`invParse`, modelling `json.Unmarshal`; `none`
models a decode failure), then check that every required image is present. -/
def portoImagesPreloaded (invRun : Option String)
    (invParse : String → Option CrictlImages) (images : List String) : Bool :=
  match invRun with
  | none => false
  | some out =>
    match invParse out with
    | none => false
    | some ji => imagesAllFound ji.images images

/-- The spec's reading of the matcher, for comparison with the code: the
"add default tag/repository" normalization applied to BOTH the requirement
and each candidate tag before the exact-equality comparison. -/
def specMatcherBothSidesNormalized (entries : List CrictlImage)
    (images : List String) : Bool :=
  images.all fun i =>
    entries.any fun e =>
      e.repoTags.any fun rt =>
        addRepoTagToImageName i == addRepoTagToImageName rt

theorem hasChar_append (l₁ l₂ : List Char) (c : Char) :
    hasChar (l₁ ++ l₂) c = (hasChar l₁ c || hasChar l₂ c) := by
  simp [hasChar, List.any_append]

theorem data_append (s t : String) : (s ++ t).data = s.data ++ t.data := by
  cases s; cases t; rfl

theorem addTag_keeps_slash (w : String) (hw : hasChar w.data '/' = true) :
    hasChar (if hasChar w.data ':' = true then w else w ++ ":latest").data '/' = true := by
  by_cases h2 : hasChar w.data ':' = true
  · rw [if_pos h2]; exact hw
  · rw [if_neg h2, data_append, hasChar_append, hw, Bool.true_or]

theorem addRepoTag_hasSlash (i : String) :
    hasChar (addRepoTagToImageName i).data '/' = true := by
  unfold addRepoTagToImageName
  by_cases h : hasChar i.data '/' = true
  · rw [if_pos h]
    exact addTag_keeps_slash i h
  · rw [if_neg h]
    apply addTag_keeps_slash
    rw [data_append, hasChar_append]
    have hd : hasChar "docker.io/library/".data '/' = true := by decide
    rw [hd, Bool.true_or]

theorem addRepoTag_hasColon (i : String) :
    hasChar (addRepoTagToImageName i).data ':' = true := by
  unfold addRepoTagToImageName
  have key : ∀ w : String,
      hasChar (if hasChar w.data ':' = true then w else w ++ ":latest").data ':' = true := by
    intro w
    by_cases h2 : hasChar w.data ':' = true
    · rw [if_pos h2]; exact h2
    · rw [if_neg h2, data_append, hasChar_append]
      have hl : hasChar ":latest".data ':' = true := by decide
      rw [hl, Bool.or_true]
  by_cases h : hasChar i.data '/' = true
  · rw [if_pos h]; exact key i
  · rw [if_neg h]; exact key _

/-- The normalization is idempotent, so the repeated in-loop reassignment
`i = addRepoTagToImageName(i)` stabilizes after the first application. -/
theorem addRepoTag_idem (i : String) :
    addRepoTagToImageName (addRepoTagToImageName i) = addRepoTagToImageName i := by
  have h1 := addRepoTag_hasSlash i
  have h2 := addRepoTag_hasColon i
  generalize addRepoTagToImageName i = n at h1 h2 ⊢
  simp [addRepoTagToImageName, h1, h2]

theorem findTagInEntry_norm_fst (ts : List String) (i : String) :
    addRepoTagToImageName (findTagInEntry i ts).1 = addRepoTagToImageName i := by
  induction ts generalizing i with
  | nil => rfl
  | cons rt rts ih =>
    simp only [findTagInEntry]
    by_cases h : (addRepoTagToImageName i == rt) = true
    · rw [if_pos h]
      exact addRepoTag_idem i
    · rw [if_neg h]
      rw [ih (addRepoTagToImageName i), addRepoTag_idem]

theorem findTagInEntry_found (ts : List String) (i : String) :
    (findTagInEntry i ts).2 = ts.any (fun rt => addRepoTagToImageName i == rt) := by
  induction ts generalizing i with
  | nil => rfl
  | cons rt rts ih =>
    simp only [findTagInEntry, List.any_cons]
    by_cases h : (addRepoTagToImageName i == rt) = true
    · rw [if_pos h, h, Bool.true_or]
    · rw [if_neg h]
      rw [ih (addRepoTagToImageName i), addRepoTag_idem]
      cases hb : (addRepoTagToImageName i == rt) with
      | true => exact absurd hb h
      | false => rw [Bool.false_or]

theorem findTagInInventory_found (es : List CrictlImage) (i : String) :
    (findTagInInventory i es).2 =
      es.any (fun e => e.repoTags.any (fun rt => addRepoTagToImageName i == rt)) := by
  induction es generalizing i with
  | nil => rfl
  | cons e es' ih =>
    simp only [findTagInInventory, List.any_cons]
    rcases hfe : findTagInEntry i e.repoTags with ⟨i2, f⟩
    have hsnd : f = e.repoTags.any (fun rt => addRepoTagToImageName i == rt) := by
      have := findTagInEntry_found e.repoTags i
      rw [hfe] at this
      exact this
    have hfst : addRepoTagToImageName i2 = addRepoTagToImageName i := by
      have := findTagInEntry_norm_fst e.repoTags i
      rw [hfe] at this
      exact this
    cases f with
    | true => simp [← hsnd]
    | false =>
      simp only [if_neg (by simp : ¬(false = true))]
      rw [ih i2, hfst, ← hsnd, Bool.false_or]

theorem imagesAllFound_eq_all (entries : List CrictlImage) (images : List String) :
    imagesAllFound entries images =
      images.all (fun i =>
        entries.any (fun e => e.repoTags.any (fun rt => addRepoTagToImageName i == rt))) := by
  induction images with
  | nil => rfl
  | cons i is ih =>
    simp only [imagesAllFound, List.all_cons]
    rcases hfi : findTagInInventory i entries with ⟨i2, f⟩
    have hsnd : f = entries.any (fun e => e.repoTags.any (fun rt => addRepoTagToImageName i == rt)) := by
      have := findTagInInventory_found entries i
      rw [hfi] at this
      exact this
    cases f with
    | true => rw [if_pos rfl, ih, ← hsnd, Bool.true_and]
    | false =>
      rw [if_neg (by simp : ¬(false = true)), ← hsnd, Bool.false_and]

/-- The Go regexp whitespace class `\s`: `[\t\n\f\r ]`. -/
def isSpaceChar (c : Char) : Bool :=
  c == ' ' || c == '\t' || c == '\n' || c == '\x0c' || c == '\r'

/-- The greedy `\S*`: the maximal leading run of non-whitespace characters. -/
def takeNonSpace : List Char → List Char
  | [] => []
  | c :: cs => if isSpaceChar c then [] else c :: takeNonSpace cs

/-- Leftmost match of the Go pattern `(\d\.\S*)` used by `parsePortoVersion`:
the match starts at the first position where a single digit is immediately
followed by a dot, and extends greedily over non-whitespace. -/
def findVersionToken : List Char → Option (List Char)
  | c :: d :: cs =>
    if c.isDigit && d == '.' then some (c :: d :: takeNonSpace cs)
    else findVersionToken (d :: cs)
  | _ => none

/-- The error of the Version Parser, carrying the original input line
(the Go code returns `fmt.Errorf("unknown version: %q", line)`). -/
structure ParseError where
  line : String
  deriving DecidableEq

/-- `parsePortoVersion` parses the version token from one line of
`portod --version` output: the first regexp match of `(\d\.\S*)`, or a
`ParseError` carrying the line when there is no match. -/
def parsePortoVersion (line : String) : Except ParseError String :=
  match findVersionToken line.data with
  | some t => Except.ok (String.mk t)
  | none => Except.error ⟨line⟩

/-- Some position of the list holds a digit immediately followed by a dot.
(A substring matching "one or more digits then a dot" exists iff a substring
matching "one digit then a dot" exists, so this also decides the claim's
"digit-dot pattern".) -/
def hasDigitDot : List Char → Bool
  | c :: d :: cs => (c.isDigit && d == '.') || hasDigitDot (d :: cs)
  | _ => false

theorem findVersionToken_none_iff (l : List Char) :
    findVersionToken l = none ↔ hasDigitDot l = false := by
  induction l with
  | nil => simp [findVersionToken, hasDigitDot]
  | cons c rest ih =>
    cases rest with
    | nil => simp [findVersionToken, hasDigitDot]
    | cons d cs =>
      by_cases h : (c.isDigit && d == '.') = true
      · simp [findVersionToken, hasDigitDot, h]
      · simp only [Bool.not_eq_true] at h
        simp [findVersionToken, hasDigitDot, h, ih]

theorem findVersionToken_at_first (pre : List Char) (c : Char) (rest : List Char)
    (hc : c.isDigit = true) (hpre : hasDigitDot (pre ++ [c]) = false) :
    findVersionToken (pre ++ c :: '.' :: rest) = some (c :: '.' :: takeNonSpace rest) := by
  induction pre with
  | nil =>
    simp [findVersionToken, hc]
  | cons a pre' ih =>
    cases hp : pre' with
    | nil =>
      subst hp
      have ha : (a.isDigit && c == '.') = false := by
        have := hpre
        simp only [List.cons_append, List.nil_append, hasDigitDot] at this
        rcases Bool.or_eq_false_iff.mp this with ⟨h1, _⟩
        exact h1
      simp only [List.cons_append, List.nil_append, findVersionToken, ha,
        Bool.false_eq_true, if_false]
      simp [findVersionToken, hc]
    | cons b pre'' =>
      subst hp
      have hsplit : hasDigitDot ((a :: b :: pre'') ++ [c]) = false := hpre
      simp only [List.cons_append, hasDigitDot] at hsplit
      rcases Bool.or_eq_false_iff.mp hsplit with ⟨h1, h2⟩
      have htail : hasDigitDot ((b :: pre'') ++ [c]) = false := by
        simpa [List.cons_append] using h2
      simp only [List.cons_append, findVersionToken, h1, Bool.false_eq_true, if_false]
      have := ih htail
      simpa [List.cons_append] using this

/-- `needle` is a prefix of `hay` (character lists). -/
def listIsPrefixOf : List Char → List Char → Bool
  | [], _ => true
  | _ :: _, [] => false
  | c :: cs, d :: ds => c == d && listIsPrefixOf cs ds

/-- `needle` occurs as a contiguous substring of `hay`, as in Go's
`strings.Contains` (the empty needle occurs in everything). -/
def subOccurs (needle : List Char) : List Char → Bool
  | [] => listIsPrefixOf needle []
  | c :: t => listIsPrefixOf needle (c :: t) || subOccurs needle t

/-- Go's `strings.Contains(s, sub)`. -/
def strContainsSubstr (s sub : String) : Bool :=
  subOccurs sub.data s.data

/-- `ImageExists(name, sha)`: run `sudo portoctl docker-images` (`runOut` is
the command's outcome: `none` models a failed execution, `some out` the
combined output) and report `false` on execution failure, missing `name`
substring, or — when `sha` is non-empty — missing `sha` substring. -/
def ImageExists (runOut : Option String) (name sha : String) : Bool :=
  match runOut with
  | none => false
  | some out =>
    if !(strContainsSubstr out name) then false
    else if (sha != "") && !(strContainsSubstr out sha) then false
    else true

/-- `LoadImage`: deliberately unimplemented for porto; returns
`errors.New("not implemented")` and issues no command (empty trace). -/
def LoadImage (path : String) : Except String Unit × List String :=
  (Except.error "not implemented", [])

/-- `SaveImage`: deliberately unimplemented for porto. -/
def SaveImage (name path : String) : Except String Unit × List String :=
  (Except.error "not implemented", [])

/-- `TagImage`: deliberately unimplemented for porto. -/
def TagImage (source target : String) : Except String Unit × List String :=
  (Except.error "not implemented", [])

/-- `BuildImage`: deliberately unimplemented for porto. -/
def BuildImage (src file tag : String) (push : Bool) (env opts : List String) :
    Except String Unit × List String :=
  (Except.error "not implemented", [])

/-- `PushImage`: deliberately unimplemented for porto. -/
def PushImage (name : String) : Except String Unit × List String :=
  (Except.error "not implemented", [])

/-- The baseline pause image `Enable` pulls unconditionally
(`HACK(ernado): porto is missing this image for some reason`). -/
def pauseImage : String := "registry.k8s.io/pause:3.7"

/-- Observable actions `Enable` performs against the host, in order. -/
inductive EnableEvent
  | kernelCheckEv (maj mnr : Nat)
  | disableOthersEv
  | populateCRIConfigEv
  | generatePortoConfigEv
  | enableIPForwardingEv
  | restartServiceEv
  | pullImageEv (name : String)
  deriving DecidableEq

/-- Whether an `Enable` event mutates host state (the kernel-version probes
are reads; everything else writes configuration, restarts the service, or
pulls an image). -/
def isHostMutation : EnableEvent → Bool
  | EnableEvent.kernelCheckEv _ _ => false
  | _ => true

/-- Whether an `Enable` event is one of the kernel compatibility gates. -/
def isKernelCheckEv : EnableEvent → Bool
  | EnableEvent.kernelCheckEv _ _ => true
  | _ => false

/-- Environment of `Enable`: the host kernel version and each collaborator's
outcome. -/
structure EnableEnv where
  kernel : Nat × Nat
  disableOthersOk : Bool
  populateCRIConfigOk : Bool
  enableIPForwardingOk : Bool
  restartOk : Bool
  pullOk : String → Bool

/-- Errors `Enable` can return, mirroring the wrapping in the source. -/
inductive EnableErr
  | rootlessKernelRequired (maj mnr : Nat)
  | populateCRIConfigFailed
  | enableIPForwardingFailed
  | restartFailed
  | pullingPauseImage (name : String)
  deriving DecidableEq

/-- Host kernel version (major, minor) is at least the given requirement. -/
def kernelGE (kernel : Nat × Nat) (maj mnr : Nat) : Bool :=
  decide (maj < kernel.1) || (kernel.1 == maj && decide (mnr ≤ kernel.2))

/-- Modelled from the spec: `CheckKernelCompatibility` (defined outside the
provided sources) compares the host kernel version against a required minimum
(major, minor); success iff host ≥ required, else a `CompatibilityError`
naming the required version. -/
def CheckKernelCompatibility (kernel : Nat × Nat) (maj mnr : Nat) :
    Except (Nat × Nat) Unit :=
  if kernelGE kernel maj mnr then Except.ok () else Except.error (maj, mnr)

/-- `generatePortoConfig` from the source: a stub that always returns nil. -/
def generatePortoConfig : Except EnableErr Unit := Except.ok ()

/-- The steps of `Enable` after the rootless kernel gates: best-effort
`disableOthers` (failure only logged), `populateCRIConfig`,
`generatePortoConfig`, `enableIPForwarding`, service restart, then the
unconditional pause-image pull whose failure is wrapped as
"pulling pause image". -/
def enableSteps (env : EnableEnv) (disOthers : Bool) (cgroupDriver : String) :
    Except EnableErr Unit × List EnableEvent :=
  let evs0 : List EnableEvent :=
    if disOthers then [EnableEvent.disableOthersEv] else []
  if env.populateCRIConfigOk = false then
    (Except.error EnableErr.populateCRIConfigFailed,
      evs0 ++ [EnableEvent.populateCRIConfigEv])
  else
    match generatePortoConfig with
    | Except.error e =>
      (Except.error e,
        evs0 ++ [EnableEvent.populateCRIConfigEv, EnableEvent.generatePortoConfigEv])
    | Except.ok () =>
      let evs1 := evs0 ++ [EnableEvent.populateCRIConfigEv, EnableEvent.generatePortoConfigEv]
      if env.enableIPForwardingOk = false then
        (Except.error EnableErr.enableIPForwardingFailed,
          evs1 ++ [EnableEvent.enableIPForwardingEv])
      else
        let evs2 := evs1 ++ [EnableEvent.enableIPForwardingEv]
        if env.restartOk = false then
          (Except.error EnableErr.restartFailed, evs2 ++ [EnableEvent.restartServiceEv])
        else
          let evs3 := evs2 ++ [EnableEvent.restartServiceEv, EnableEvent.pullImageEv pauseImage]
          if env.pullOk pauseImage = false then
            (Except.error (EnableErr.pullingPauseImage pauseImage), evs3)
          else (Except.ok (), evs3)

/-- `Enable(disOthers, cgroupDriver, inUserNamespace)`: when rootless mode is
requested, the hard kernel gate (5.11) runs first and its failure aborts with
the wrapped compatibility error; the soft gate (5.13) runs second and its
result is only logged. Then the remaining steps run. -/
def Enable (env : EnableEnv) (disOthers : Bool) (cgroupDriver : String)
    (inUserNamespace : Bool) : Except EnableErr Unit × List EnableEvent :=
  if inUserNamespace then
    match CheckKernelCompatibility env.kernel 5 11 with
    | Except.error (maj, mnr) =>
      (Except.error (EnableErr.rootlessKernelRequired maj mnr),
        [EnableEvent.kernelCheckEv 5 11])
    | Except.ok () =>
      let soft := CheckKernelCompatibility env.kernel 5 13
      let (r, evs) := enableSteps env disOthers cgroupDriver
      (r, EnableEvent.kernelCheckEv 5 11 :: EnableEvent.kernelCheckEv 5 13 :: evs)
  else
    enableSteps env disOthers cgroupDriver

theorem enableSteps_no_kernel_check (env : EnableEnv) (d : Bool) (cg : String) :
    (enableSteps env d cg).2.all (fun e => !(isKernelCheckEv e)) = true := by
  unfold enableSteps generatePortoConfig
  cases d <;>
    by_cases h1 : env.populateCRIConfigOk = false <;>
      by_cases h2 : env.enableIPForwardingOk = false <;>
        by_cases h3 : env.restartOk = false <;>
          cases h4 : env.pullOk pauseImage <;>
            simp [h1, h2, h3, h4, isKernelCheckEv]

/-- Observable actions `Preload` performs, in order. -/
inductive PreloadEvent
  | pullEv (img : String)
  | restartServiceEv
  deriving DecidableEq

/-- Errors `Preload` can return (image-list resolution is taken as already
successful, per the source's earlier `images.Kubeadm` call). -/
inductive PreloadErr
  | pullingImage (img : String)
  | restartFailed
  deriving DecidableEq

/-- Environment of `Preload`: outcomes of the inventory listing command, the
JSON decode, each image pull, and the service restart. -/
structure PreloadEnv where
  invRun : Option String
  invParse : String → Option CrictlImages
  pullOk : String → Bool
  restartOk : Bool

/-- The pull loop of `Preload`: pull every required image sequentially,
aborting on the first failure with the offending image name attached; after
all pulls succeed, restart the managed service. -/
def preloadPullAll (env : PreloadEnv) :
    List String → Except PreloadErr Unit × List PreloadEvent
  | [] =>
    if env.restartOk then (Except.ok (), [PreloadEvent.restartServiceEv])
    else (Except.error PreloadErr.restartFailed, [PreloadEvent.restartServiceEv])
  | img :: rest =>
    if env.pullOk img then
      let (r, evs) := preloadPullAll env rest
      (r, PreloadEvent.pullEv img :: evs)
    else (Except.error (PreloadErr.pullingImage img), [PreloadEvent.pullEv img])

/-- `Preload(cc)` after the required image list has been resolved: if the
inventory matcher reports everything present, succeed without pulling;
otherwise pull all images then restart. -/
def Preload (env : PreloadEnv) (imageList : List String) :
    Except PreloadErr Unit × List PreloadEvent :=
  if portoImagesPreloaded env.invRun env.invParse imageList then (Except.ok (), [])
  else preloadPullAll env imageList

theorem preloadPullAll_all_ok (env : PreloadEnv) (l : List String)
    (h : ∀ i ∈ l, env.pullOk i = true) :
    preloadPullAll env l =
      ((if env.restartOk then Except.ok () else Except.error PreloadErr.restartFailed),
        l.map PreloadEvent.pullEv ++ [PreloadEvent.restartServiceEv]) := by
  induction l with
  | nil =>
    by_cases hr : env.restartOk = true <;> simp [preloadPullAll, hr]
  | cons img rest ih =>
    have himg : env.pullOk img = true := h img (List.mem_cons_self img rest)
    have hrest : ∀ i ∈ rest, env.pullOk i = true :=
      fun i hi => h i (List.mem_cons_of_mem img hi)
    simp only [preloadPullAll, himg, if_true, ih hrest]
    simp

theorem preloadPullAll_first_fail (env : PreloadEnv) (pre : List String)
    (img : String) (post : List String)
    (hpre : ∀ i ∈ pre, env.pullOk i = true) (himg : env.pullOk img = false) :
    preloadPullAll env (pre ++ img :: post) =
      (Except.error (PreloadErr.pullingImage img),
        pre.map PreloadEvent.pullEv ++ [PreloadEvent.pullEv img]) := by
  induction pre with
  | nil =>
    simp [preloadPullAll, himg]
  | cons a pre' ih =>
    have ha : env.pullOk a = true := hpre a (List.mem_cons_self a pre')
    have hpre' : ∀ i ∈ pre', env.pullOk i = true :=
      fun i hi => hpre i (List.mem_cons_of_mem a hi)
    simp only [List.cons_append, preloadPullAll, ha, if_true, ih hpre']
    simp [ih hpre']

/-- C1 (counterexample): the claim says the normalization is applied to both
the requirement and each candidate tag; the code normalizes only the
requirement. With requirement `"pause"` and an inventory tag `"pause"`, the
claim's both-sides reading reports preloaded, but the code reports not
preloaded (it compares the normalized requirement with the raw tag). -/
theorem portoImagesPreloaded_normalizes_requirement_only_cex :
    portoImagesPreloaded (some "out")
        (fun _ => some ⟨[⟨"sha256:abc", ["pause"]⟩]⟩) ["pause"] = false ∧
    specMatcherBothSidesNormalized [⟨"sha256:abc", ["pause"]⟩] ["pause"] = true := by
  constructor
  · rfl
  · rfl

/-- C1 (amended): given a successfully retrieved and parsed inventory,
`portoImagesPreloaded` returns true iff every required name, after the
add-default-tag/repository normalization is applied to the requirement ONLY,
is exactly equal to some raw candidate tag of some inventory entry (the outer
loop short-circuits to false on the first unmatched requirement, so the
result is the conjunction over the required list). -/
theorem portoImagesPreloaded_iff_all_any (s : String)
    (invParse : String → Option CrictlImages) (inv : CrictlImages)
    (images : List String) (h : invParse s = some inv) :
    portoImagesPreloaded (some s) invParse images =
      images.all (fun i =>
        inv.images.any (fun e =>
          e.repoTags.any (fun rt => addRepoTagToImageName i == rt))) := by
  simp only [portoImagesPreloaded, h]
  exact imagesAllFound_eq_all inv.images images

/-- C1 (witness): a concrete instantiation of the amended matcher theorem. -/
theorem portoImagesPreloaded_iff_all_any_witness :
    portoImagesPreloaded (some "out")
        (fun _ => some ⟨[⟨"id1", ["docker.io/library/pause:latest"]⟩]⟩)
        ["pause"] = true := by
  have h := portoImagesPreloaded_iff_all_any "out"
      (fun _ => some ⟨[⟨"id1", ["docker.io/library/pause:latest"]⟩]⟩)
      ⟨[⟨"id1", ["docker.io/library/pause:latest"]⟩]⟩ ["pause"] rfl
  rw [h]
  rfl

/-- C2 (counterexample): the claim says the parser returns the first
substring matching "one or more digits, a dot, then non-whitespace" (so
`"12.3.4"` for input `"12.3.4"`); the regexp `(\d\.\S*)` matches a SINGLE
digit before the dot, so the leftmost match in `"12.3.4"` starts at the
`'2'` and the parser returns `"2.3.4"`. -/
theorem parsePortoVersion_multidigit_cex :
    parsePortoVersion "12.3.4" = Except.ok "2.3.4" ∧
    parsePortoVersion "12.3.4" ≠ Except.ok "12.3.4" := by
  constructor
  · rfl
  · intro h
    have h1 : parsePortoVersion "12.3.4" = Except.ok "2.3.4" := rfl
    rw [h1] at h
    have : ("2.3.4" : String) = "12.3.4" := Except.ok.inj h
    exact absurd this (by decide)

/-- C2 (amended): `parsePortoVersion` returns, without error, the token
starting at the LEFTMOST position where a single digit is immediately
followed by a dot — that digit, the dot, and the maximal following run of
non-whitespace (so a multi-digit component before the first dot is truncated
to its last digit); and it returns a `ParseError` carrying the original line
iff the line contains no digit immediately followed by a dot (equivalently,
no digit-dot pattern at all). -/
theorem parsePortoVersion_spec :
    (∀ (pre : List Char) (c : Char) (rest : List Char),
        c.isDigit = true → hasDigitDot (pre ++ [c]) = false →
        parsePortoVersion (String.mk (pre ++ c :: '.' :: rest)) =
          Except.ok (String.mk (c :: '.' :: takeNonSpace rest))) ∧
    (∀ line : String,
        parsePortoVersion line = Except.error ⟨line⟩ ↔ hasDigitDot line.data = false) := by
  constructor
  · intro pre c rest hc hpre
    simp only [parsePortoVersion]
    rw [findVersionToken_at_first pre c rest hc hpre]
  · intro line
    constructor
    · intro h
      rcases hf : findVersionToken line.data with _ | t
      · exact (findVersionToken_none_iff line.data).mp hf
      · simp [parsePortoVersion, hf] at h
    · intro h
      have hn : findVersionToken line.data = none :=
        (findVersionToken_none_iff line.data).mpr h
      simp [parsePortoVersion, hn]

/-- C2 (witness): the documented example line parses to `5.3.30-alpha.7`,
and a line with no digit-dot pattern fails with the line attached. -/
theorem parsePortoVersion_spec_witness :
    parsePortoVersion "version: 5.3.30-alpha.7  /usr/sbin/portod" =
        Except.ok "5.3.30-alpha.7" ∧
    parsePortoVersion "no digits here" = Except.error ⟨"no digits here"⟩ := by
  constructor
  · exact parsePortoVersion_spec.1 "version: ".data '5'
      "3.30-alpha.7  /usr/sbin/portod".data (by decide) (by decide)
  · exact (parsePortoVersion_spec.2 "no digits here").mpr (by decide)

/-- C5: `LoadImage`, `SaveImage`, `TagImage`, `BuildImage`, `PushImage` fail
for every argument value with the fixed "not implemented" error, and their
command trace is empty: the Command Executor is never invoked and no side
effect is performed. -/
theorem unsupported_image_ops :
    (∀ path : String, LoadImage path = (Except.error "not implemented", [])) ∧
    (∀ name path : String, SaveImage name path = (Except.error "not implemented", [])) ∧
    (∀ source target : String, TagImage source target = (Except.error "not implemented", [])) ∧
    (∀ (src file tag : String) (push : Bool) (env opts : List String),
      BuildImage src file tag push env opts = (Except.error "not implemented", [])) ∧
    (∀ name : String, PushImage name = (Except.error "not implemented", [])) :=
  ⟨fun _ => rfl, fun _ _ => rfl, fun _ _ => rfl, fun _ _ _ _ _ _ => rfl, fun _ => rfl⟩

/-- C6: whenever the inventory listing command fails (`invRun = none`) or its
output does not decode as the expected JSON shape (`invParse s = none`), the
preload check reports not preloaded for every required image list. -/
theorem portoImagesPreloaded_conservative (invRun : Option String)
    (invParse : String → Option CrictlImages) (images : List String) :
    (invRun = none → portoImagesPreloaded invRun invParse images = false) ∧
    (∀ s, invRun = some s → invParse s = none →
      portoImagesPreloaded invRun invParse images = false) := by
  constructor
  · intro h
    subst h
    rfl
  · intro s hs hp
    subst hs
    simp [portoImagesPreloaded, hp]

/-- C6 (witness): concrete retrieval failure and parse failure both report
not preloaded. -/
theorem portoImagesPreloaded_conservative_witness :
    portoImagesPreloaded none (fun _ => some ⟨[]⟩) ["a"] = false ∧
    portoImagesPreloaded (some "garbage") (fun _ => none) ["a"] = false :=
  ⟨(portoImagesPreloaded_conservative none (fun _ => some ⟨[]⟩) ["a"]).1 rfl,
    (portoImagesPreloaded_conservative (some "garbage") (fun _ => none) ["a"]).2
      "garbage" rfl rfl⟩

/-- C7: for every successfully retrieved and parsed inventory, the matcher
applied to an empty required image list returns true (vacuous truth). -/
theorem portoImagesPreloaded_empty_required (s : String)
    (invParse : String → Option CrictlImages) (inv : CrictlImages)
    (h : invParse s = some inv) :
    portoImagesPreloaded (some s) invParse [] = true := by
  simp [portoImagesPreloaded, h, imagesAllFound]

/-- C7 (witness): empty required list against a concrete non-empty inventory. -/
theorem portoImagesPreloaded_empty_required_witness :
    portoImagesPreloaded (some "o") (fun _ => some ⟨[⟨"id", ["x:y"]⟩]⟩) [] = true :=
  portoImagesPreloaded_empty_required "o" (fun _ => some ⟨[⟨"id", ["x:y"]⟩]⟩)
    ⟨[⟨"id", ["x:y"]⟩]⟩ rfl

/-- C9: when the listing command succeeds with output `out`,
`ImageExists name sha` is true iff `out` contains `name` as a substring and,
when `sha` is non-empty, also contains `sha`; with empty `sha` the result
depends only on the `name` substring. -/
theorem ImageExists_success_iff (out name sha : String) :
    ImageExists (some out) name sha =
      (strContainsSubstr out name && (sha == "" || strContainsSubstr out sha)) := by
  simp only [ImageExists]
  by_cases h2 : sha = ""
  · subst h2
    cases h1 : strContainsSubstr out name <;> simp [h1]
  · have h2' : (sha == "") = false := by simp [h2]
    cases h1 : strContainsSubstr out name <;>
      cases h3 : strContainsSubstr out sha <;>
        simp [h1, h2', h3, h2]

/-- C10: when the listing command itself fails, `ImageExists` returns false
for every name and sha; the failure is swallowed into the boolean result. -/
theorem ImageExists_run_failure_false (name sha : String) :
    ImageExists none name sha = false :=
  rfl

/-- C3: with the required image list already resolved, if the matcher reports
everything present then `Preload` succeeds with zero pulls and no restart;
otherwise it pulls every required image sequentially in list order (aborting
on the first failed pull with an error naming that image and no restart), and
only after all pulls succeed restarts the service exactly once, after the
pulls. -/
theorem Preload_spec (env : PreloadEnv) (imageList : List String) :
    (portoImagesPreloaded env.invRun env.invParse imageList = true →
      Preload env imageList = (Except.ok (), [])) ∧
    (portoImagesPreloaded env.invRun env.invParse imageList = false →
      (∀ i ∈ imageList, env.pullOk i = true) →
      (Preload env imageList).2 =
        imageList.map PreloadEvent.pullEv ++ [PreloadEvent.restartServiceEv] ∧
      (Preload env imageList).2.count PreloadEvent.restartServiceEv = 1) ∧
    (portoImagesPreloaded env.invRun env.invParse imageList = false →
      ∀ (pre : List String) (img : String) (post : List String),
        imageList = pre ++ img :: post →
        (∀ i ∈ pre, env.pullOk i = true) → env.pullOk img = false →
        Preload env imageList =
          (Except.error (PreloadErr.pullingImage img),
            pre.map PreloadEvent.pullEv ++ [PreloadEvent.pullEv img])) := by
  refine ⟨?_, ?_, ?_⟩
  · intro h
    simp [Preload, h]
  · intro h hall
    have hs := preloadPullAll_all_ok env imageList hall
    have htrace : (Preload env imageList).2 =
        imageList.map PreloadEvent.pullEv ++ [PreloadEvent.restartServiceEv] := by
      simp [Preload, h, hs]
    refine ⟨htrace, ?_⟩
    rw [htrace, List.count_append]
    have hzero :
        (imageList.map PreloadEvent.pullEv).count PreloadEvent.restartServiceEv = 0 := by
      rw [List.count_eq_zero]
      intro hmem
      rcases List.mem_map.mp hmem with ⟨a, _, ha⟩
      exact PreloadEvent.noConfusion ha
    rw [hzero]
    rfl
  · intro h pre img post heq hpre himg
    subst heq
    simp only [Preload, h, Bool.false_eq_true, if_false]
    exact preloadPullAll_first_fail env pre img post hpre himg

/-- C3 (witness): the spec's scenario — required list `["img:v3"]` and an
inventory without it issues exactly one pull for `img:v3` then one restart;
a required list already present in the inventory issues nothing. -/
theorem Preload_spec_witness :
    ((Preload ⟨some "o", fun _ => some ⟨[]⟩, fun _ => true, true⟩ ["img:v3"]).2 =
        [PreloadEvent.pullEv "img:v3", PreloadEvent.restartServiceEv] ∧
      (Preload ⟨some "o", fun _ => some ⟨[]⟩, fun _ => true, true⟩
          ["img:v3"]).2.count PreloadEvent.restartServiceEv = 1) ∧
    Preload ⟨some "o", fun _ => some ⟨[⟨"id", ["docker.io/library/img:v1"]⟩]⟩,
        fun _ => false, false⟩ ["img:v1"] = (Except.ok (), []) := by
  constructor
  · exact (Preload_spec ⟨some "o", fun _ => some ⟨[]⟩, fun _ => true, true⟩
      ["img:v3"]).2.1 rfl (fun i _ => rfl)
  · exact (Preload_spec ⟨some "o",
      fun _ => some ⟨[⟨"id", ["docker.io/library/img:v1"]⟩]⟩,
      fun _ => false, false⟩ ["img:v1"]).1 rfl

/-- C4: with rootless mode requested, the hard 5.11 gate runs first and its
failure makes `Enable` return the wrapped compatibility error naming the
requirement with no host mutation performed; when the hard gate passes, the
soft 5.13 gate runs second and the outcome and actions of `Enable` are
exactly those of the remaining steps regardless of the soft result (a soft
failure never stops execution); without rootless mode neither gate runs. -/
theorem Enable_kernel_gates (env : EnableEnv) (disOthers : Bool) (cg : String) :
    (kernelGE env.kernel 5 11 = false →
      Enable env disOthers cg true =
        (Except.error (EnableErr.rootlessKernelRequired 5 11),
          [EnableEvent.kernelCheckEv 5 11]) ∧
      (Enable env disOthers cg true).2.filter isHostMutation = []) ∧
    (kernelGE env.kernel 5 11 = true →
      Enable env disOthers cg true =
        ((enableSteps env disOthers cg).1,
          EnableEvent.kernelCheckEv 5 11 :: EnableEvent.kernelCheckEv 5 13 ::
            (enableSteps env disOthers cg).2)) ∧
    (Enable env disOthers cg false = enableSteps env disOthers cg ∧
      (Enable env disOthers cg false).2.all (fun e => !(isKernelCheckEv e)) = true) := by
  refine ⟨?_, ?_, ?_, ?_⟩
  · intro h
    have he : Enable env disOthers cg true =
        (Except.error (EnableErr.rootlessKernelRequired 5 11),
          [EnableEvent.kernelCheckEv 5 11]) := by
      simp [Enable, CheckKernelCompatibility, h]
    refine ⟨he, ?_⟩
    rw [he]
    rfl
  · intro h
    rcases hes : enableSteps env disOthers cg with ⟨r, evs⟩
    simp [Enable, CheckKernelCompatibility, h, hes]
  · simp [Enable]
  · have he : Enable env disOthers cg false = enableSteps env disOthers cg := by
      simp [Enable]
    rw [he]
    exact enableSteps_no_kernel_check env disOthers cg

/-- C4 (witness): a 5.10 kernel makes rootless `Enable` fail closed before
any mutation; a 5.12 kernel (hard gate passes, soft gate fails) still lets
`Enable` run to success — the soft failure is advisory only. -/
theorem Enable_kernel_gates_witness :
    Enable ⟨(5, 10), true, true, true, true, fun _ => true⟩ true "systemd" true =
      (Except.error (EnableErr.rootlessKernelRequired 5 11),
        [EnableEvent.kernelCheckEv 5 11]) ∧
    (Enable ⟨(5, 12), true, true, true, true, fun _ => true⟩ true "systemd" true).1 =
      Except.ok () := by
  constructor
  · exact ((Enable_kernel_gates ⟨(5, 10), true, true, true, true, fun _ => true⟩
      true "systemd").1 (by decide)).1
  · have h := (Enable_kernel_gates ⟨(5, 12), true, true, true, true, fun _ => true⟩
      true "systemd").2.1 (by decide)
    rw [h]
    rfl

/-- C8: on every path through `Enable` whose earlier steps all succeed
(hard kernel gate when rootless, CRI config, IP forwarding, restart), the
final step pulls the baseline pause image exactly once, as the last action,
regardless of the other arguments and with no prior existence check; a
failed pull is fatal and surfaces as the "pulling pause image" wrapped
error, and a successful pull completes `Enable`. -/
theorem Enable_pulls_pause_image (env : EnableEnv) (disOthers : Bool)
    (cg : String) (u : Bool)
    (hk : u = true → kernelGE env.kernel 5 11 = true)
    (hp : env.populateCRIConfigOk = true)
    (hf : env.enableIPForwardingOk = true)
    (hr : env.restartOk = true) :
    (Enable env disOthers cg u).2.count (EnableEvent.pullImageEv pauseImage) = 1 ∧
    (Enable env disOthers cg u).2.getLast? = some (EnableEvent.pullImageEv pauseImage) ∧
    (env.pullOk pauseImage = false →
      (Enable env disOthers cg u).1 = Except.error (EnableErr.pullingPauseImage pauseImage)) ∧
    (env.pullOk pauseImage = true → (Enable env disOthers cg u).1 = Except.ok ()) := by
  have henable : Enable env disOthers cg u =
      ((enableSteps env disOthers cg).1,
        (if u then [EnableEvent.kernelCheckEv 5 11, EnableEvent.kernelCheckEv 5 13]
          else []) ++ (enableSteps env disOthers cg).2) := by
    cases u with
    | false => simp [Enable]
    | true =>
      have hk' := hk rfl
      rcases hes : enableSteps env disOthers cg with ⟨r, evs⟩
      simp [Enable, CheckKernelCompatibility, hk', hes]
  rw [henable]
  cases hpull : env.pullOk pauseImage with
  | false =>
    have hsteps : enableSteps env disOthers cg =
        (Except.error (EnableErr.pullingPauseImage pauseImage),
          (if disOthers then [EnableEvent.disableOthersEv] else []) ++
            [EnableEvent.populateCRIConfigEv, EnableEvent.generatePortoConfigEv,
              EnableEvent.enableIPForwardingEv, EnableEvent.restartServiceEv,
              EnableEvent.pullImageEv pauseImage]) := by
      simp [enableSteps, generatePortoConfig, hp, hf, hr, hpull]
    rw [hsteps]
    cases u <;> cases disOthers <;>
      refine ⟨by decide, by decide, fun _ => rfl, fun hc => absurd hc (by simp [hpull])⟩
  | true =>
    have hsteps : enableSteps env disOthers cg =
        (Except.ok (),
          (if disOthers then [EnableEvent.disableOthersEv] else []) ++
            [EnableEvent.populateCRIConfigEv, EnableEvent.generatePortoConfigEv,
              EnableEvent.enableIPForwardingEv, EnableEvent.restartServiceEv,
              EnableEvent.pullImageEv pauseImage]) := by
      simp [enableSteps, generatePortoConfig, hp, hf, hr, hpull]
    rw [hsteps]
    cases u <;> cases disOthers <;>
      refine ⟨by decide, by decide, fun hc => absurd hc (by simp [hpull]), fun _ => rfl⟩

/-- C8 (witness): with all earlier steps succeeding, a failing pause pull is
fatal with the wrapped error, and a succeeding one completes `Enable`. -/
theorem Enable_pulls_pause_image_witness :
    (Enable ⟨(5, 15), true, true, true, true, fun _ => true⟩ true "systemd" true).1 =
      Except.ok () ∧
    (Enable ⟨(5, 15), true, true, true, true, fun _ => false⟩ false "systemd" false).1 =
      Except.error (EnableErr.pullingPauseImage pauseImage) := by
  constructor
  · exact (Enable_pulls_pause_image ⟨(5, 15), true, true, true, true, fun _ => true⟩
      true "systemd" true (fun _ => by decide) rfl rfl rfl).2.2.2 rfl
  · exact (Enable_pulls_pause_image ⟨(5, 15), true, true, true, true, fun _ => false⟩
      false "systemd" false (fun _ => by decide) rfl rfl rfl).2.2.1 rfl
